import Mathlib

/-!
Shallow embedding of the transactional-outbox subsystem of chalk-api:
`pkg/models/outbox_event.go`, `pkg/repositories/outbox_repository.go`,
`pkg/workers/outbox_worker.go`, `pkg/events/dispatcher.go` and
`pkg/events/handlers.go`.

Conventions of the embedding:
- Go `time.Time` and `time.Duration` are modelled as `Int` nanoseconds
  (the zero `time.Time` is `0`).
- Go byte strings that are sliced by byte (error messages fed to
  `truncateError`) are modelled as `List Nat` byte lists; strings that are
  only ever compared for equality (statuses, event types, ticket codes)
  stay `String`.
- The database table is a `List OutboxEvent`; SQL `UPDATE ... WHERE` is a
  `List.map` with a row-level conditional, `ORDER BY available_at, id` is a
  `mergeSort` with the corresponding lexicographic comparison, auto-assigned
  primary keys are `max id + 1`.
- Handlers and the dispatcher perform I/O in Go; here a handler is a pure
  function from the event to `Option HandlerError` (`none` = success), and
  the gateway response of the push handler is an explicit input.
-/

namespace ChalkOutbox

/-- Status constants from `pkg/models/outbox_event.go`. -/
def OutboxStatusPending : String := "pending"

def OutboxStatusProcessing : String := "processing"

def OutboxStatusProcessed : String := "processed"

def OutboxStatusFailed : String := "failed"

/-- One nanosecond-denominated second, as in Go `time.Second`. -/
def second : Int := 1000000000

/-- Go `time.Minute`. -/
def minute : Int := 60 * second

/-- `models.OutboxEvent`: one row of the `outbox_events` table. -/
structure OutboxEvent where
  id : Nat
  eventType : String
  aggregateType : String
  aggregateId : String
  idempotencyKey : String
  payload : String
  status : String
  attempts : Nat
  availableAt : Int
  processingStarted : Option Int
  processedAt : Option Int
  lastError : Option (List Nat)
  createdAt : Int
  updatedAt : Int
deriving Repr, DecidableEq

/-- A row is eligible for claiming: `status = 'pending' AND available_at <= now`
(the `WHERE` clause of `ClaimPending`). -/
def claimEligible (now : Int) (r : OutboxEvent) : Bool :=
  r.status == OutboxStatusPending && decide (r.availableAt ≤ now)

/-- The `ORDER BY available_at ASC, id ASC` comparison of `ClaimPending`. -/
def claimLE (a b : OutboxEvent) : Bool :=
  decide (a.availableAt < b.availableAt) ||
    (decide (a.availableAt = b.availableAt) && decide (a.id ≤ b.id))

/-- The row update of `ClaimPending`'s second statement: set status to
processing, stamp `processing_started` and `updated_at`. -/
def markClaimedRow (now : Int) (r : OutboxEvent) : OutboxEvent :=
  { r with status := OutboxStatusProcessing, processingStarted := some now,
           updatedAt := now }

/-- The in-memory fix-up `ClaimPending` applies to the slice it returns
(only `Status` and `ProcessingStarted` are set on the returned copies). -/
def claimReturnRow (now : Int) (r : OutboxEvent) : OutboxEvent :=
  { r with status := OutboxStatusProcessing, processingStarted := some now }

/-- The `SELECT ... FOR UPDATE SKIP LOCKED ... ORDER BY ... LIMIT` of
`ClaimPending`: eligible rows in `(available_at, id)` order, first `lim`. -/
def claimSelect (store : List OutboxEvent) (now : Int) (lim : Nat) :
    List OutboxEvent :=
  ((store.filter (claimEligible now)).mergeSort claimLE).take lim

/-- `OutboxRepository.ClaimPending`: returns the claimed rows (as the caller
sees them) and the table after the claiming transaction. A non-positive
limit defaults to 25, as in the source. -/
def ClaimPending (store : List OutboxEvent) (limit : Int) (now : Int) :
    List OutboxEvent × List OutboxEvent :=
  let lim : Nat := if limit ≤ 0 then 25 else limit.toNat
  let selected := claimSelect store now lim
  let ids := selected.map (·.id)
  let updated := store.map fun r =>
    if ids.contains r.id then markClaimedRow now r else r
  (selected.map (claimReturnRow now), updated)

/-- Row update of `OutboxRepository.MarkProcessed`. -/
def markProcessedRow (now : Int) (r : OutboxEvent) : OutboxEvent :=
  { r with status := OutboxStatusProcessed, processedAt := some now,
           processingStarted := none, lastError := none, updatedAt := now }

/-- `OutboxRepository.MarkProcessed`: terminal success for the row `rowId`. -/
def MarkProcessed (store : List OutboxEvent) (rowId : Nat) (now : Int) :
    List OutboxEvent :=
  store.map fun r => if r.id = rowId then markProcessedRow now r else r

/-- Row update of `OutboxRepository.MarkRetry`. -/
def markRetryRow (attempts : Nat) (lastError : List Nat)
    (nextAttemptAt now : Int) (r : OutboxEvent) : OutboxEvent :=
  { r with status := OutboxStatusPending, attempts := attempts,
           lastError := some lastError, availableAt := nextAttemptAt,
           processingStarted := none, updatedAt := now }

/-- `OutboxRepository.MarkRetry`: return the row to pending with the given
attempt count, error and next availability. -/
def MarkRetry (store : List OutboxEvent) (rowId : Nat) (attempts : Nat)
    (lastError : List Nat) (nextAttemptAt now : Int) : List OutboxEvent :=
  store.map fun r =>
    if r.id = rowId then markRetryRow attempts lastError nextAttemptAt now r
    else r

/-- Row update of `OutboxRepository.MarkFailed`. -/
def markFailedRow (attempts : Nat) (lastError : List Nat) (now : Int)
    (r : OutboxEvent) : OutboxEvent :=
  { r with status := OutboxStatusFailed, attempts := attempts,
           lastError := some lastError, processingStarted := none,
           updatedAt := now }

/-- `OutboxRepository.MarkFailed`: terminal failure for the row `rowId`. -/
def MarkFailed (store : List OutboxEvent) (rowId : Nat) (attempts : Nat)
    (lastError : List Nat) (now : Int) : List OutboxEvent :=
  store.map fun r =>
    if r.id = rowId then markFailedRow attempts lastError now r else r

/-- The `WHERE` clause of `RequeueStuckProcessing`:
`status = 'processing' AND processing_started IS NOT NULL AND
processing_started < cutoff`. -/
def stuckRow (cutoff : Int) (r : OutboxEvent) : Bool :=
  r.status == OutboxStatusProcessing &&
    match r.processingStarted with
    | some t => decide (t < cutoff)
    | none => false

/-- Row update of `RequeueStuckProcessing`. -/
def requeueRow (now : Int) (r : OutboxEvent) : OutboxEvent :=
  { r with status := OutboxStatusPending, availableAt := now,
           processingStarted := none, updatedAt := now }

/-- `OutboxRepository.RequeueStuckProcessing`: move stale processing rows
back to pending; returns the new table and the affected-row count. A
non-positive `olderThan` defaults to ten minutes, as in the source. -/
def RequeueStuckProcessing (store : List OutboxEvent) (olderThan now : Int) :
    List OutboxEvent × Nat :=
  let d := if olderThan ≤ 0 then 10 * minute else olderThan
  let cutoff := now - d
  (store.map fun r => if stuckRow cutoff r then requeueRow now r else r,
   (store.filter (stuckRow cutoff)).length)

/-- Auto-increment primary key the database assigns on insert. -/
def nextId (store : List OutboxEvent) : Nat :=
  (store.map OutboxEvent.id).foldr max 0 + 1

/-- Database errors the embedding distinguishes. The Go code recognises the
unique-constraint case by a substring match on the engine's message
(`isUniqueViolation`); here the two kinds are separate constructors. -/
inductive DBError
  | uniqueViolation
  | other (msg : String)
deriving Repr, DecidableEq

/-- `isUniqueViolation` from `outbox_repository.go`. -/
def isUniqueViolation : DBError → Bool
  | .uniqueViolation => true
  | .other _ => false

/-- The insert executed by `db.Create`: a row whose `idempotency_key`
already exists trips the unique index and inserts nothing; otherwise the
row is appended with a fresh primary key. -/
def dbCreate (store : List OutboxEvent) (event : OutboxEvent) :
    List OutboxEvent × Option DBError :=
  if store.any fun r => r.idempotencyKey == event.idempotencyKey then
    (store, some .uniqueViolation)
  else
    (store ++ [{ event with id := nextId store }], none)

/-- The defaulting `enqueueWithDB` performs before the insert: a blank
status becomes pending, a zero `available_at` becomes now. -/
def enqueueNormalize (event : OutboxEvent) (now : Int) : OutboxEvent :=
  let e1 := if event.status = "" then
    { event with status := OutboxStatusPending } else event
  if e1.availableAt = 0 then { e1 with availableAt := now } else e1

/-- `OutboxRepository.enqueueWithDB`: default blank status and zero
`available_at`, insert, and swallow a unique-constraint violation as
success. Both `Enqueue` and `EnqueueTx` reduce to this. -/
def enqueueWithDB (store : List OutboxEvent) (event : OutboxEvent)
    (now : Int) : List OutboxEvent × Option DBError :=
  match dbCreate store (enqueueNormalize event now) with
  | (st, some err) =>
      if isUniqueViolation err then (st, none) else (st, some err)
  | (st, none) => (st, none)

/-- An error returned by a handler. `permanent` is true when the Go error
wraps `events.NonRetryableError` (as built by `events.Permanent`); the
message is the Go error string as bytes. -/
structure HandlerError where
  permanent : Bool
  message : List Nat
deriving Repr, DecidableEq

/-- `events.IsPermanent`: whether `errors.As` finds a `NonRetryableError`. -/
def IsPermanent (e : HandlerError) : Bool := e.permanent

/-- A handler: `Handle(ctx, event) error`, with `none` for a nil error. -/
abbrev Handler : Type := OutboxEvent → Option HandlerError

/-- `Dispatcher.Dispatch`: look up the handler by `event_type`; with no
handler registered the dispatch returns a nil error and does nothing. -/
def Dispatch (handlers : List (String × Handler)) (e : OutboxEvent) :
    Option HandlerError :=
  match handlers.lookup e.eventType with
  | none => none
  | some h => h e

/-- `workers.OutboxWorkerConfig`. Durations are `Int` nanoseconds. -/
structure OutboxWorkerConfig where
  pollInterval : Int
  batchSize : Int
  maxAttempts : Int
  stuckAfter : Int
deriving Repr, DecidableEq

/-- The config normalisation performed by `NewOutboxWorker`: non-positive
fields fall back to the defaults (2s, 25, 8, 10min). -/
def newOutboxWorkerConfig (c : OutboxWorkerConfig) : OutboxWorkerConfig where
  pollInterval := if c.pollInterval ≤ 0 then 2 * second else c.pollInterval
  batchSize := if c.batchSize ≤ 0 then 25 else c.batchSize
  maxAttempts := if c.maxAttempts ≤ 0 then 8 else c.maxAttempts
  stuckAfter := if c.stuckAfter ≤ 0 then 10 * minute else c.stuckAfter

/-- The loop body of `backoffForAttempt`: `n` remaining iterations of
`delay *= 2; if delay >= maxDelay { return maxDelay }` with
`maxDelay = 15 * time.Minute`. -/
def backoffLoop : Nat → Int → Int
  | 0, delay => delay
  | n + 1, delay =>
      let d := delay * 2
      if 15 * minute ≤ d then 15 * minute else backoffLoop n d

/-- `backoffForAttempt` from `outbox_worker.go`: 15s base, doubled per
attempt past the first, capped at 15min. -/
def backoffForAttempt (attempt : Int) : Int :=
  if attempt ≤ 1 then 15 * second
  else backoffLoop (attempt - 1).toNat (15 * second)

/-- `truncateError` from `outbox_worker.go`: Go slices the string by byte,
so the message is a byte list here. -/
def truncateError (message : List Nat) (maxLen : Nat) : List Nat :=
  if message.length ≤ maxLen then message else message.take maxLen

/-- The repository call `processEvent` makes for one claimed event. -/
inductive Outcome
  | processed
  | retried (attempts : Nat) (lastError : List Nat) (retryAt : Int)
  | failed (attempts : Nat) (lastError : List Nat)
deriving Repr, DecidableEq

/-- The decision logic of `OutboxWorker.processEvent`, given the result of
`dispatcher.Dispatch`: success marks processed; an error bumps the attempt
count, truncates the message, and either fails the event (permanent error
or attempt cap reached) or schedules a retry with backoff. -/
def processEvent (cfg : OutboxWorkerConfig) (e : OutboxEvent)
    (dispatchResult : Option HandlerError) (now : Int) : Outcome :=
  match dispatchResult with
  | none => .processed
  | some err =>
      let attempts := e.attempts + 1
      let errorMessage := truncateError err.message 2000
      if IsPermanent err || decide (cfg.maxAttempts ≤ ((e.attempts : Int) + 1))
      then .failed attempts errorMessage
      else .retried attempts errorMessage
        (now + backoffForAttempt ((e.attempts : Int) + 1))

/-- The `last_error` value an outcome stores, if any. -/
def outcomeLastError : Outcome → Option (List Nat)
  | .processed => none
  | .retried _ m _ => some m
  | .failed _ m => some m

/-- Apply the repository call chosen by `processEvent` to the table. -/
def applyOutcome (store : List OutboxEvent) (eventId : Nat) (out : Outcome)
    (now : Int) : List OutboxEvent :=
  match out with
  | .processed => MarkProcessed store eventId now
  | .retried attempts msg retryAt =>
      MarkRetry store eventId attempts msg retryAt now
  | .failed attempts msg => MarkFailed store eventId attempts msg now

/-- `OutboxWorker.runCycle`: requeue stale processing rows, claim a batch,
then dispatch each claimed event and record its outcome. -/
def runCycle (handlers : List (String × Handler))
    (cfg : OutboxWorkerConfig) (store : List OutboxEvent) (now : Int) :
    List OutboxEvent :=
  let store1 := (RequeueStuckProcessing store cfg.stuckAfter now).1
  let claim := ClaimPending store1 cfg.batchSize now
  claim.1.foldl
    (fun st e => applyOutcome st e.id (processEvent cfg e (Dispatch handlers e) now) now)
    claim.2

/-- One observable step of the subsystem: a publish (`enqueueWithDB`, which
both `Enqueue` and `EnqueueTx` reduce to), a standalone stuck-row requeue,
or one full worker cycle (requeue, claim, dispatch and mark, exactly as
`runCycle` sequences them — the worker only ever marks rows it has just
claimed). -/
inductive OutboxStep (handlers : List (String × Handler))
    (cfg : OutboxWorkerConfig) : List OutboxEvent → List OutboxEvent → Prop
  | enqueue (s : List OutboxEvent) (e : OutboxEvent) (now : Int) :
      OutboxStep handlers cfg s (enqueueWithDB s e now).1
  | requeue (s : List OutboxEvent) (olderThan now : Int) :
      OutboxStep handlers cfg s (RequeueStuckProcessing s olderThan now).1
  | cycle (s : List OutboxEvent) (now : Int) :
      OutboxStep handlers cfg s (runCycle handlers cfg s now)

/-- UTF-8 bytes of a Go string. -/
def strBytes (s : String) : List Nat :=
  s.toUTF8.toList.map (fun b => b.toNat)

/-- Expo error codes from `pkg/external/expo/expo.go`. -/
def ErrorDeviceNotRegistered : String := "DeviceNotRegistered"

/-- Expo error code for an oversized message. -/
def ErrorMessageTooBig : String := "MessageTooBig"

/-- Expo error code for rate limiting. -/
def ErrorMessageRateExceeded : String := "MessageRateExceeded"

/-- Expo error code for bad credentials. -/
def ErrorInvalidCredentials : String := "InvalidCredentials"

/-- `expo.TicketError`. -/
structure TicketError where
  error : String
deriving Repr, DecidableEq

/-- `expo.PushTicket`: per-recipient delivery ticket from the gateway. The
free-form `message` is bytes since it is concatenated into error strings. -/
structure PushTicket where
  ticketId : String
  status : String
  message : List Nat
  details : Option TicketError
deriving Repr, DecidableEq

/-- The `errorCode` extraction in `PushNotificationHandler.Handle`:
`ticket.Details.Error` when details are present, else the empty string. -/
def ticketErrorCode (t : PushTicket) : String :=
  match t.details with
  | some d => d.error
  | none => ""

/-- One iteration of the ticket loop in `PushNotificationHandler.Handle`:
the transient-failure entry the ticket contributes, if any. Non-error
tickets contribute nothing; rate-limited and unrecognised codes contribute
`"<code>: <message>"`; the three known terminal codes are logged and
dropped. -/
def ticketTransientFailure (t : PushTicket) : Option (List Nat) :=
  if t.status == "error" then
    if ticketErrorCode t == ErrorMessageRateExceeded then
      some (strBytes (ticketErrorCode t) ++ strBytes ": " ++ t.message)
    else if ticketErrorCode t == ErrorDeviceNotRegistered ||
        ticketErrorCode t == ErrorMessageTooBig ||
        ticketErrorCode t == ErrorInvalidCredentials then
      none
    else
      some (strBytes (ticketErrorCode t) ++ strBytes ": " ++ t.message)
  else none

/-- The `transientFailures` slice accumulated over all tickets. -/
def collectTransientFailures (tickets : List PushTicket) : List (List Nat) :=
  tickets.filterMap ticketTransientFailure

/-- `events.PushNotificationPayload` (the `Data` map is opaque to the
handler and is omitted). -/
structure PushNotificationPayload where
  tokens : List String
  title : String
  body : String
deriving Repr, DecidableEq

/-- Result of the `expoAPI.SendPush` network call, which is external I/O
and therefore an input of the embedded handler. -/
inductive SendPushResult
  | failure (msg : List Nat)
  | success (tickets : List PushTicket)
deriving Repr, DecidableEq

/-- `PushNotificationHandler.Handle`, with the two external effects made
explicit: `decodedPayload` is the result of `json.Unmarshal` (`none` on a
decode error) and `send` the result of `expoAPI.SendPush`. Decode failures
and payload validation failures are permanent; a gateway call failure is
transient; otherwise the tickets are inspected and any accumulated
transient failures are joined with `"; "` into one transient error. -/
def PushNotificationHandle (decodedPayload : Option PushNotificationPayload)
    (send : SendPushResult) : Option HandlerError :=
  match decodedPayload with
  | none =>
      some { permanent := true,
             message := strBytes "decode notification payload" }
  | some payload =>
      if payload.tokens.length = 0 then
        some { permanent := true,
               message := strBytes "notification payload missing tokens" }
      else if payload.body == "" then
        some { permanent := true,
               message := strBytes "notification payload missing body" }
      else
        match send with
        | .failure msg =>
            some { permanent := false,
                   message := strBytes "send expo push: " ++ msg }
        | .success tickets =>
            let transientFailures := collectTransientFailures tickets
            if transientFailures.length > 0 then
              some { permanent := false,
                     message := strBytes "expo transient ticket errors: " ++
                       List.intercalate (strBytes "; ") transientFailures }
            else none

/-! ### Sample data for concrete instantiations -/

/-- A concrete claimed outbox row used to instantiate theorems. -/
def sampleEvent : OutboxEvent :=
  { id := 1, eventType := "message.sent", aggregateType := "message",
    aggregateId := "42", idempotencyKey := "message.sent:42", payload := "{}",
    status := OutboxStatusProcessing, attempts := 0, availableAt := 0,
    processingStarted := some 0, processedAt := none, lastError := none,
    createdAt := 0, updatedAt := 0 }

/-- The fully-defaulted worker configuration (`NewOutboxWorker` on zeros). -/
def defaultConfig : OutboxWorkerConfig := newOutboxWorkerConfig ⟨0, 0, 0, 0⟩

/-- A concrete pending outbox row. -/
def samplePendingEvent : OutboxEvent :=
  { sampleEvent with status := OutboxStatusPending, processingStarted := none }

/-- A concrete error ticket carrying a known terminal code. -/
def sampleTerminalTicket : PushTicket :=
  { ticketId := "a", status := "error", message := [],
    details := some ⟨"DeviceNotRegistered"⟩ }

/-- A concrete valid push payload. -/
def samplePayload : PushNotificationPayload :=
  { tokens := ["tok1"], title := "title", body := "hello" }

/-- A concrete terminally-failed outbox row. -/
def sampleFailedEvent : OutboxEvent :=
  { sampleEvent with status := OutboxStatusFailed }

/-! ### Helper lemmas -/

theorem backoffLoop_min (n : Nat) :
    ∀ delay : Int, 0 < delay → delay ≤ 15 * minute →
      backoffLoop n delay = min (delay * 2 ^ n) (15 * minute) := by
  induction n with
  | zero =>
      intro delay _ h2
      simp [backoffLoop, min_eq_left h2]
  | succ n ih =>
      intro delay h1 h2
      have h2n : (1 : Int) ≤ 2 ^ n := one_le_pow₀ (by norm_num)
      by_cases hc : 15 * minute ≤ delay * 2
      · have hge : 15 * minute ≤ delay * 2 ^ (n + 1) := by
          calc 15 * minute ≤ delay * 2 := hc
            _ ≤ delay * 2 * 2 ^ n := le_mul_of_one_le_right (by linarith) h2n
            _ = delay * 2 ^ (n + 1) := by ring
        simp only [backoffLoop, if_pos hc]
        exact (min_eq_right hge).symm
      · push_neg at hc
        simp only [backoffLoop, if_neg (not_le.mpr hc)]
        rw [ih (delay * 2) (by linarith) (le_of_lt hc)]
        congr 1
        ring

theorem backoffForAttempt_eq_min (k : Int) (hk : 1 ≤ k) :
    backoffForAttempt k = min (15 * second * 2 ^ (k - 1).toNat) (15 * minute) := by
  have hsm : 15 * second ≤ 15 * minute := by norm_num [second, minute]
  by_cases h1 : k ≤ 1
  · have : k = 1 := le_antisymm h1 hk
    subst this
    simp [backoffForAttempt, min_eq_left hsm]
  · rw [backoffForAttempt, if_neg h1]
    exact backoffLoop_min _ (15 * second) (by norm_num [second]) hsm

theorem truncateError_spec (msg : List Nat) (maxLen : Nat) :
    (truncateError msg maxLen).length ≤ maxLen ∧
      ∃ t, truncateError msg maxLen ++ t = msg := by
  unfold truncateError
  by_cases h : msg.length ≤ maxLen
  · simp [h]
  · rw [if_neg h]
    refine ⟨by simp [List.length_take], msg.drop maxLen, ?_⟩
    exact List.take_append_drop maxLen msg

theorem processEvent_some_eq (cfg : OutboxWorkerConfig) (e : OutboxEvent)
    (err : HandlerError) (now : Int) :
    processEvent cfg e (some err) now =
      if IsPermanent err || decide (cfg.maxAttempts ≤ ((e.attempts : Int) + 1))
      then Outcome.failed (e.attempts + 1) (truncateError err.message 2000)
      else Outcome.retried (e.attempts + 1) (truncateError err.message 2000)
        (now + backoffForAttempt ((e.attempts : Int) + 1)) := rfl

/-! ### Claim theorems -/

/-- C3: for every attempt number k ≥ 1 the scheduled retry delay equals
min(15s · 2^(k-1), 15min); attempt 1 yields exactly the 15-second base
delay, and the delay is non-decreasing in k. -/
theorem backoffForAttempt_closed_form (k : Int) (hk : 1 ≤ k) :
    backoffForAttempt k = min (15 * second * 2 ^ (k - 1).toNat) (15 * minute) ∧
    backoffForAttempt 1 = 15 * second ∧
    ∀ j : Int, 1 ≤ j → j ≤ k → backoffForAttempt j ≤ backoffForAttempt k := by
  refine ⟨backoffForAttempt_eq_min k hk, ?_, ?_⟩
  · have hsm : 15 * second ≤ 15 * minute := by norm_num [second, minute]
    simp [backoffForAttempt, min_eq_left hsm]
  · intro j hj hjk
    rw [backoffForAttempt_eq_min k hk, backoffForAttempt_eq_min j hj]
    refine min_le_min ?_ le_rfl
    have hexp : (j - 1).toNat ≤ (k - 1).toNat := by omega
    have := pow_le_pow_right₀ (by norm_num : (1 : Int) ≤ 2) hexp
    have h15 : (0 : Int) ≤ 15 * second := by norm_num [second]
    exact mul_le_mul_of_nonneg_left this h15

theorem backoffForAttempt_closed_form_witness :
    (1 : Int) ≤ 3 ∧
    (backoffForAttempt 3 = min (15 * second * 2 ^ ((3 : Int) - 1).toNat) (15 * minute) ∧
     backoffForAttempt 1 = 15 * second ∧
     ∀ j : Int, 1 ≤ j → j ≤ 3 → backoffForAttempt j ≤ backoffForAttempt 3) :=
  ⟨by norm_num, backoffForAttempt_closed_form 3 (by norm_num)⟩

/-- C10: every `last_error` the worker records for a handler error is a
byte-prefix of the handler's error message of length at most 2000, and the
row the outcome is applied to stores exactly that truncation. -/
theorem lastError_truncation_bound (cfg : OutboxWorkerConfig)
    (e : OutboxEvent) (err : HandlerError) (now : Int) (m : List Nat)
    (h : outcomeLastError (processEvent cfg e (some err) now) = some m) :
    m.length ≤ 2000 ∧ (∃ t, m ++ t = err.message) ∧
    ∀ store : List OutboxEvent,
      ∀ r ∈ applyOutcome store e.id (processEvent cfg e (some err) now) now,
        r.id = e.id → r.lastError = some m := by
  have hm : m = truncateError err.message 2000 := by
    rw [processEvent_some_eq] at h
    by_cases hc : (IsPermanent err ||
        decide (cfg.maxAttempts ≤ ((e.attempts : Int) + 1))) = true
    · rw [if_pos hc] at h
      simpa [outcomeLastError] using h.symm
    · rw [if_neg hc] at h
      simpa [outcomeLastError] using h.symm
  obtain ⟨hlen, ht⟩ := truncateError_spec err.message 2000
  refine ⟨hm ▸ hlen, hm ▸ ht, ?_⟩
  intro store r hr hid
  rw [processEvent_some_eq] at hr
  by_cases hc : (IsPermanent err ||
      decide (cfg.maxAttempts ≤ ((e.attempts : Int) + 1))) = true
  · rw [if_pos hc] at hr
    simp only [applyOutcome, MarkFailed] at hr
    obtain ⟨r0, _, hr0⟩ := List.mem_map.mp hr
    by_cases h0 : r0.id = e.id
    · rw [if_pos h0] at hr0
      rw [← hr0, hm]
      rfl
    · rw [if_neg h0] at hr0
      exact absurd (hr0 ▸ hid) h0
  · rw [if_neg hc] at hr
    simp only [applyOutcome, MarkRetry] at hr
    obtain ⟨r0, _, hr0⟩ := List.mem_map.mp hr
    by_cases h0 : r0.id = e.id
    · rw [if_pos h0] at hr0
      rw [← hr0, hm]
      rfl
    · rw [if_neg h0] at hr0
      exact absurd (hr0 ▸ hid) h0

theorem lastError_truncation_bound_witness :
    outcomeLastError (processEvent defaultConfig sampleEvent
        (some ⟨false, [104, 105]⟩) 0) = some [104, 105] ∧
    ([104, 105] : List Nat).length ≤ 2000 ∧
    (∃ t, [104, 105] ++ t = (⟨false, [104, 105]⟩ : HandlerError).message) ∧
    ∀ store : List OutboxEvent,
      ∀ r ∈ applyOutcome store sampleEvent.id
          (processEvent defaultConfig sampleEvent (some ⟨false, [104, 105]⟩) 0) 0,
        r.id = sampleEvent.id → r.lastError = some [104, 105] :=
  ⟨by decide,
   lastError_truncation_bound defaultConfig sampleEvent ⟨false, [104, 105]⟩ 0
     [104, 105] (by decide)⟩

/-- C2: for a claimed event whose dispatch errs, the worker records
attempts = previous attempts + 1 and fails the event exactly when the
error is permanent or the new attempt count reaches MaxAttempts; otherwise
it schedules a retry. A permanent error on the first attempt yields the
failed outcome with attempts = 1 for every MaxAttempts setting ≥ 1. -/
theorem processEvent_failure_classification (cfg : OutboxWorkerConfig)
    (e : OutboxEvent) (err : HandlerError) (now : Int) :
    (processEvent cfg e (some err) now =
        Outcome.failed (e.attempts + 1) (truncateError err.message 2000) ↔
      IsPermanent err = true ∨ cfg.maxAttempts ≤ (e.attempts : Int) + 1) ∧
    (¬(IsPermanent err = true ∨ cfg.maxAttempts ≤ (e.attempts : Int) + 1) →
      processEvent cfg e (some err) now =
        Outcome.retried (e.attempts + 1) (truncateError err.message 2000)
          (now + backoffForAttempt ((e.attempts : Int) + 1))) ∧
    (IsPermanent err = true → e.attempts = 0 → 1 ≤ cfg.maxAttempts →
      processEvent cfg e (some err) now =
        Outcome.failed 1 (truncateError err.message 2000)) := by
  have hcond : (IsPermanent err ||
      decide (cfg.maxAttempts ≤ ((e.attempts : Int) + 1))) = true ↔
      IsPermanent err = true ∨ cfg.maxAttempts ≤ (e.attempts : Int) + 1 := by
    simp
  refine ⟨⟨?_, ?_⟩, ?_, ?_⟩
  · intro h
    by_contra hn
    rw [processEvent_some_eq, if_neg (fun hb => hn (hcond.mp hb))] at h
    exact Outcome.noConfusion h
  · intro h
    rw [processEvent_some_eq, if_pos (hcond.mpr h)]
  · intro hn
    rw [processEvent_some_eq, if_neg (fun hb => hn (hcond.mp hb))]
  · intro hp h0 _
    rw [processEvent_some_eq, if_pos (hcond.mpr (Or.inl hp)), h0]

theorem processEvent_failure_classification_witness :
    IsPermanent ⟨true, [104]⟩ = true ∧ sampleEvent.attempts = 0 ∧
    (1 : Int) ≤ defaultConfig.maxAttempts ∧
    processEvent defaultConfig sampleEvent (some ⟨true, [104]⟩) 0 =
      Outcome.failed 1 (truncateError [104] 2000) :=
  ⟨rfl, rfl, by decide,
   (processEvent_failure_classification defaultConfig sampleEvent
      ⟨true, [104]⟩ 0).2.2 rfl rfl (by decide)⟩

/-- C8: an event whose type has no registered handler dispatches to a nil
error without running any handler, and the worker marks it processed: the
row with the event's id becomes `processed` and every other row is left
untouched. -/
theorem unregistered_event_marked_processed
    (handlers : List (String × Handler)) (cfg : OutboxWorkerConfig)
    (e : OutboxEvent) (now : Int) (store : List OutboxEvent)
    (h : handlers.lookup e.eventType = none) :
    Dispatch handlers e = none ∧
    processEvent cfg e (Dispatch handlers e) now = Outcome.processed ∧
    ∀ r ∈ applyOutcome store e.id
        (processEvent cfg e (Dispatch handlers e) now) now,
      (r.id = e.id → r.status = OutboxStatusProcessed ∧
        r.processedAt = some now) ∧
      (r.id ≠ e.id → r ∈ store) := by
  have hd : Dispatch handlers e = none := by rw [Dispatch, h]
  refine ⟨hd, by rw [hd]; rfl, ?_⟩
  intro r hr
  rw [hd] at hr
  simp only [processEvent, applyOutcome, MarkProcessed] at hr
  obtain ⟨r0, hr0mem, hr0⟩ := List.mem_map.mp hr
  by_cases h0 : r0.id = e.id
  · rw [if_pos h0] at hr0
    constructor
    · intro _
      rw [← hr0]
      exact ⟨rfl, rfl⟩
    · intro hne
      exact absurd (by rw [← hr0]; exact h0) hne
  · rw [if_neg h0] at hr0
    constructor
    · intro hid
      exact absurd (hr0 ▸ hid) h0
    · intro _
      exact hr0 ▸ hr0mem

theorem unregistered_event_marked_processed_witness :
    ([("workout.assigned", fun _ => none)] :
        List (String × Handler)).lookup sampleEvent.eventType = none ∧
    (Dispatch [("workout.assigned", fun _ => none)] sampleEvent = none ∧
     processEvent defaultConfig sampleEvent
        (Dispatch [("workout.assigned", fun _ => none)] sampleEvent) 0 =
       Outcome.processed ∧
     ∀ r ∈ applyOutcome [sampleEvent] sampleEvent.id
         (processEvent defaultConfig sampleEvent
           (Dispatch [("workout.assigned", fun _ => none)] sampleEvent) 0) 0,
       (r.id = sampleEvent.id → r.status = OutboxStatusProcessed ∧
         r.processedAt = some 0) ∧
       (r.id ≠ sampleEvent.id → r ∈ [sampleEvent])) :=
  ⟨rfl, unregistered_event_marked_processed
    [("workout.assigned", fun _ => none)] defaultConfig sampleEvent 0
    [sampleEvent] rfl⟩

theorem enqueueNormalize_key (event : OutboxEvent) (now : Int) :
    (enqueueNormalize event now).idempotencyKey = event.idempotencyKey := by
  simp only [enqueueNormalize]
  split <;> split <;> rfl

theorem forall₂_map_self {α : Type} (f : α → α) (P : α → α → Prop) :
    ∀ l : List α, (∀ a ∈ l, P a (f a)) → List.Forall₂ P l (l.map f)
  | [], _ => List.Forall₂.nil
  | a :: l, h =>
      List.Forall₂.cons (h a (by simp))
        (forall₂_map_self f P l fun b hb => h b (by simp [hb]))

theorem stuckRow_eq_true_iff (cutoff : Int) (r : OutboxEvent) :
    stuckRow cutoff r = true ↔
      r.status = OutboxStatusProcessing ∧
        ∃ t, r.processingStarted = some t ∧ t < cutoff := by
  unfold stuckRow
  cases h : r.processingStarted <;> simp [h]

/-- C4: enqueueing an event whose idempotency key already exists reports
success and inserts nothing; publishing twice with the same key starting
from a store without it leaves exactly one row with that key and both
calls return no error. -/
theorem enqueue_idempotent (store : List OutboxEvent) (e e' : OutboxEvent)
    (now now' : Int) (hk : e'.idempotencyKey = e.idempotencyKey)
    (h0 : ∀ r ∈ store, r.idempotencyKey ≠ e.idempotencyKey) :
    (enqueueWithDB store e now).2 = none ∧
    (enqueueWithDB store e now).1.length = store.length + 1 ∧
    (enqueueWithDB (enqueueWithDB store e now).1 e' now').2 = none ∧
    (enqueueWithDB (enqueueWithDB store e now).1 e' now').1 =
      (enqueueWithDB store e now).1 ∧
    ((enqueueWithDB (enqueueWithDB store e now).1 e' now').1.filter
        (fun r => r.idempotencyKey == e.idempotencyKey)).length = 1 := by
  have hany1 : (store.any
      fun r => r.idempotencyKey == (enqueueNormalize e now).idempotencyKey)
      = false := by
    rw [List.any_eq_false]
    intro r hr
    simp only [enqueueNormalize_key, beq_iff_eq]
    exact h0 r hr
  have h1 : enqueueWithDB store e now =
      (store ++ [{ enqueueNormalize e now with id := nextId store }], none) := by
    simp [enqueueWithDB, dbCreate, hany1]
  have hrowkey :
      ({ enqueueNormalize e now with id := nextId store }).idempotencyKey
        = e.idempotencyKey := by
    rw [← enqueueNormalize_key e now]
  have hany2 : ((store ++ [{ enqueueNormalize e now with id := nextId store }]).any
      fun r => r.idempotencyKey == (enqueueNormalize e' now').idempotencyKey)
      = true := by
    rw [List.any_eq_true]
    refine ⟨{ enqueueNormalize e now with id := nextId store }, by simp, ?_⟩
    simp only [enqueueNormalize_key, hk, beq_iff_eq, hrowkey]
  have h2 : enqueueWithDB
      (store ++ [{ enqueueNormalize e now with id := nextId store }]) e' now' =
      (store ++ [{ enqueueNormalize e now with id := nextId store }], none) := by
    simp only [enqueueWithDB, dbCreate, hany2, if_true, isUniqueViolation]
  rw [h1]
  refine ⟨rfl, by simp, ?_, ?_, ?_⟩
  · rw [h2]
  · rw [h2]
  · rw [h2]
    rw [List.filter_append]
    have hnil : store.filter (fun r => r.idempotencyKey == e.idempotencyKey)
        = [] := by
      rw [List.filter_eq_nil_iff]
      intro r hr
      simp only [beq_iff_eq]
      exact h0 r hr
    rw [hnil]
    simp [enqueueNormalize_key]

theorem enqueue_idempotent_witness :
    sampleEvent.idempotencyKey = sampleEvent.idempotencyKey ∧
    (∀ r ∈ ([] : List OutboxEvent),
      r.idempotencyKey ≠ sampleEvent.idempotencyKey) ∧
    ((enqueueWithDB [] sampleEvent 3).2 = none ∧
     (enqueueWithDB [] sampleEvent 3).1.length = ([] : List OutboxEvent).length + 1 ∧
     (enqueueWithDB (enqueueWithDB [] sampleEvent 3).1 sampleEvent 7).2 = none ∧
     (enqueueWithDB (enqueueWithDB [] sampleEvent 3).1 sampleEvent 7).1 =
       (enqueueWithDB [] sampleEvent 3).1 ∧
     ((enqueueWithDB (enqueueWithDB [] sampleEvent 3).1 sampleEvent 7).1.filter
        (fun r => r.idempotencyKey == sampleEvent.idempotencyKey)).length = 1) :=
  ⟨rfl, by simp,
   enqueue_idempotent [] sampleEvent sampleEvent 3 7 rfl (by simp)⟩

/-- C7: with a positive threshold, `RequeueStuckProcessing` returns to
pending — with `available_at = now`, cleared `processing_started`, and
attempts, payload, idempotency key and last error untouched — exactly the
rows that are processing with a non-null `processing_started` earlier than
now minus the threshold, leaving every other row unchanged; the requeued
rows are again claim-eligible. -/
theorem requeueStuckProcessing_spec (store : List OutboxEvent)
    (olderThan now : Int) (h : 0 < olderThan) :
    List.Forall₂ (fun r r' =>
      ((r.status = OutboxStatusProcessing ∧
          ∃ t, r.processingStarted = some t ∧ t < now - olderThan) →
        r'.status = OutboxStatusPending ∧ r'.availableAt = now ∧
        r'.processingStarted = none ∧ r'.attempts = r.attempts ∧
        r'.payload = r.payload ∧ r'.idempotencyKey = r.idempotencyKey ∧
        r'.lastError = r.lastError ∧ claimEligible now r' = true) ∧
      (¬(r.status = OutboxStatusProcessing ∧
          ∃ t, r.processingStarted = some t ∧ t < now - olderThan) →
        r' = r))
      store (RequeueStuckProcessing store olderThan now).1 := by
  have hd : ¬ olderThan ≤ 0 := not_le.mpr h
  simp only [RequeueStuckProcessing, if_neg hd]
  apply forall₂_map_self
  intro r _
  by_cases hs : stuckRow (now - olderThan) r = true
  · rw [if_pos hs]
    constructor
    · intro _
      refine ⟨rfl, rfl, rfl, rfl, rfl, rfl, rfl, ?_⟩
      simp [claimEligible, requeueRow, OutboxStatusPending]
    · intro hn
      exact absurd ((stuckRow_eq_true_iff _ _).mp hs) hn
  · rw [if_neg hs]
    constructor
    · intro hp
      exact absurd ((stuckRow_eq_true_iff _ _).mpr hp) hs
    · intro _
      rfl

theorem requeueStuckProcessing_spec_witness :
    (0 : Int) < minute ∧
    List.Forall₂ (fun r r' =>
      ((r.status = OutboxStatusProcessing ∧
          ∃ t, r.processingStarted = some t ∧ t < 2 * minute - minute) →
        r'.status = OutboxStatusPending ∧ r'.availableAt = 2 * minute ∧
        r'.processingStarted = none ∧ r'.attempts = r.attempts ∧
        r'.payload = r.payload ∧ r'.idempotencyKey = r.idempotencyKey ∧
        r'.lastError = r.lastError ∧ claimEligible (2 * minute) r' = true) ∧
      (¬(r.status = OutboxStatusProcessing ∧
          ∃ t, r.processingStarted = some t ∧ t < 2 * minute - minute) →
        r' = r))
      [sampleEvent] (RequeueStuckProcessing [sampleEvent] minute (2 * minute)).1 :=
  ⟨by norm_num [minute, second],
   requeueStuckProcessing_spec [sampleEvent] minute (2 * minute)
     (by norm_num [minute, second])⟩

theorem ticketTransientFailure_none_iff (t : PushTicket) :
    ticketTransientFailure t = none ↔
      ¬(t.status = "error" ∧
        (ticketErrorCode t = ErrorMessageRateExceeded ∨
         (ticketErrorCode t ≠ ErrorDeviceNotRegistered ∧
          ticketErrorCode t ≠ ErrorMessageTooBig ∧
          ticketErrorCode t ≠ ErrorInvalidCredentials))) := by
  unfold ticketTransientFailure
  split_ifs with h1 h2 h3
  · simp only [beq_iff_eq] at h1 h2
    constructor
    · intro hsome
      exact hsome.elim
    · intro hn
      exact absurd ⟨h1, Or.inl h2⟩ hn
  · simp only [beq_iff_eq] at h1 h2
    constructor
    · intro _ hp
      rcases hp.2 with hc | hc
      · exact h2 hc
      · rw [beq_eq_false_iff_ne.mpr hc.1, beq_eq_false_iff_ne.mpr hc.2.1,
            beq_eq_false_iff_ne.mpr hc.2.2] at h3
        simp at h3
    · intro _
      trivial
  · simp only [beq_iff_eq] at h1 h2
    simp only [Bool.or_eq_true, beq_iff_eq, not_or] at h3
    constructor
    · intro hsome
      exact hsome.elim
    · intro hn
      exact absurd ⟨h1, Or.inr ⟨h3.1.1, h3.1.2, h3.2⟩⟩ hn
  · simp only [beq_iff_eq] at h1
    constructor
    · intro _ hp
      exact h1 hp.1
    · intro _
      trivial

theorem collectTransientFailures_ne_nil_iff (tickets : List PushTicket) :
    (∃ t ∈ tickets, t.status = "error" ∧
       (ticketErrorCode t = ErrorMessageRateExceeded ∨
        (ticketErrorCode t ≠ ErrorDeviceNotRegistered ∧
         ticketErrorCode t ≠ ErrorMessageTooBig ∧
         ticketErrorCode t ≠ ErrorInvalidCredentials))) ↔
      collectTransientFailures tickets ≠ [] := by
  rw [Ne, collectTransientFailures, List.filterMap_eq_nil_iff]
  push_neg
  constructor
  · rintro ⟨t, ht, hp⟩
    exact ⟨t, ht, fun hnone => ((ticketTransientFailure_none_iff t).mp hnone) hp⟩
  · rintro ⟨t, ht, hne⟩
    refine ⟨t, ht, ?_⟩
    by_contra hnp
    exact hne ((ticketTransientFailure_none_iff t).mpr hnp)

/-- C9: given a gateway ticket response on a valid payload, the
push-notification handler returns a transient (never permanent) error if
and only if some error ticket carries the rate-limit code or a code other
than the three known terminal ones; when every error ticket carries a
terminal code the handler returns success. -/
theorem pushHandler_ticket_classification (payload : PushNotificationPayload)
    (tickets : List PushTicket) (htok : ¬payload.tokens.length = 0)
    (hbody : payload.body ≠ "") :
    ((∃ t ∈ tickets, t.status = "error" ∧
        (ticketErrorCode t = ErrorMessageRateExceeded ∨
         (ticketErrorCode t ≠ ErrorDeviceNotRegistered ∧
          ticketErrorCode t ≠ ErrorMessageTooBig ∧
          ticketErrorCode t ≠ ErrorInvalidCredentials))) ↔
      ∃ err, PushNotificationHandle (some payload) (.success tickets) = some err ∧
        IsPermanent err = false) ∧
    ((∀ t ∈ tickets, t.status = "error" →
        ticketErrorCode t = ErrorDeviceNotRegistered ∨
        ticketErrorCode t = ErrorMessageTooBig ∨
        ticketErrorCode t = ErrorInvalidCredentials) →
      PushNotificationHandle (some payload) (.success tickets) = none) ∧
    (PushNotificationHandle (some payload) (.success tickets) = none ∨
      ∃ err, PushNotificationHandle (some payload) (.success tickets) = some err ∧
        IsPermanent err = false) := by
  have hbodyb : ¬((payload.body == "") = true) := by simpa using hbody
  have hres : PushNotificationHandle (some payload) (.success tickets) =
      if (collectTransientFailures tickets).length > 0 then
        some { permanent := false,
               message := strBytes "expo transient ticket errors: " ++
                 List.intercalate (strBytes "; ")
                   (collectTransientFailures tickets) }
      else none := by
    simp only [PushNotificationHandle]
    rw [if_neg htok, if_neg hbodyb]
  by_cases hc : collectTransientFailures tickets = []
  · have hnone : PushNotificationHandle (some payload) (.success tickets) = none := by
      rw [hres, hc]
      simp
    refine ⟨?_, fun _ => hnone, Or.inl hnone⟩
    constructor
    · intro hex
      exact absurd hc ((collectTransientFailures_ne_nil_iff tickets).mp hex)
    · rintro ⟨err, herr, -⟩
      rw [hnone] at herr
      exact Option.noConfusion herr
  · have hpos : (collectTransientFailures tickets).length > 0 :=
      List.length_pos.mpr hc
    have hsome : PushNotificationHandle (some payload) (.success tickets) =
        some { permanent := false,
               message := strBytes "expo transient ticket errors: " ++
                 List.intercalate (strBytes "; ")
                   (collectTransientFailures tickets) } := by
      rw [hres, if_pos hpos]
    have hex : ∃ t ∈ tickets, t.status = "error" ∧
        (ticketErrorCode t = ErrorMessageRateExceeded ∨
         (ticketErrorCode t ≠ ErrorDeviceNotRegistered ∧
          ticketErrorCode t ≠ ErrorMessageTooBig ∧
          ticketErrorCode t ≠ ErrorInvalidCredentials)) :=
      (collectTransientFailures_ne_nil_iff tickets).mpr hc
    refine ⟨?_, ?_, Or.inr ⟨_, hsome, rfl⟩⟩
    · exact ⟨fun _ => ⟨_, hsome, rfl⟩, fun _ => hex⟩
    · intro hall
      obtain ⟨t, ht, herr, hcode⟩ := hex
      rcases hall t ht herr with h | h | h
      · rcases hcode with hr | hr
        · rw [h] at hr
          exact absurd hr (by decide)
        · exact absurd h hr.1
      · rcases hcode with hr | hr
        · rw [h] at hr
          exact absurd hr (by decide)
        · exact absurd h hr.2.1
      · rcases hcode with hr | hr
        · rw [h] at hr
          exact absurd hr (by decide)
        · exact absurd h hr.2.2

theorem pushHandler_ticket_classification_witness :
    ¬samplePayload.tokens.length = 0 ∧ samplePayload.body ≠ "" ∧
    ((∀ t ∈ [sampleTerminalTicket], t.status = "error" →
        ticketErrorCode t = ErrorDeviceNotRegistered ∨
        ticketErrorCode t = ErrorMessageTooBig ∨
        ticketErrorCode t = ErrorInvalidCredentials) →
      PushNotificationHandle (some samplePayload)
        (.success [sampleTerminalTicket]) = none) :=
  ⟨by decide, by decide,
   (pushHandler_ticket_classification samplePayload [sampleTerminalTicket]
     (by decide) (by decide)).2.1⟩

theorem ClaimPending_fst (store : List OutboxEvent) (limit now : Int) :
    (ClaimPending store limit now).1 =
      (claimSelect store now (if limit ≤ 0 then 25 else limit.toNat)).map
        (claimReturnRow now) := rfl

theorem ClaimPending_snd (store : List OutboxEvent) (limit now : Int) :
    (ClaimPending store limit now).2 = store.map fun r =>
      if ((claimSelect store now (if limit ≤ 0 then 25 else limit.toNat)).map
            (·.id)).contains r.id
      then markClaimedRow now r else r := rfl

theorem RequeueStuckProcessing_fst (store : List OutboxEvent)
    (olderThan now : Int) :
    (RequeueStuckProcessing store olderThan now).1 = store.map fun r =>
      if stuckRow (now - (if olderThan ≤ 0 then 10 * minute else olderThan)) r
      then requeueRow now r else r := rfl

theorem mem_claimSelect_filter {store : List OutboxEvent} {now : Int}
    {lim : Nat} {s : OutboxEvent} (hs : s ∈ claimSelect store now lim) :
    s ∈ store.filter (claimEligible now) := by
  unfold claimSelect at hs
  exact List.mem_mergeSort.mp (List.take_subset _ _ hs)

/-- C6 counterexample: a handler returning a permanent error on a row with
attempts = 0 makes the worker call MarkFailed with attempts = 1, so a
permanent (non-retryable) failure does increase the attempts counter. -/
theorem permanent_failure_increases_attempts_cex :
    IsPermanent ⟨true, [112]⟩ = true ∧
    sampleEvent.attempts = 0 ∧
    processEvent defaultConfig sampleEvent (some ⟨true, [112]⟩) 0 =
      Outcome.failed 1 [112] ∧
    ∃ r ∈ applyOutcome [sampleEvent] sampleEvent.id
        (processEvent defaultConfig sampleEvent (some ⟨true, [112]⟩) 0) 0,
      r.id = sampleEvent.id ∧ r.status = OutboxStatusFailed ∧
      sampleEvent.attempts < r.attempts := by decide

/-- C6 (amended): the attempts counter changes only when a delivery attempt
fails — transient or permanent, the worker passing previous + 1 to
MarkRetry and MarkFailed alike — and is never changed by successful
processing, claiming, stuck-row requeue, or enqueue. -/
theorem attempts_change_only_on_failed_dispatch
    (store : List OutboxEvent) (rowId : Nat) (limit now olderThan : Int)
    (cfg : OutboxWorkerConfig) (e ev : OutboxEvent) (err : HandlerError) :
    List.Forall₂ (fun r r' => r'.attempts = r.attempts) store
      (MarkProcessed store rowId now) ∧
    List.Forall₂ (fun r r' => r'.attempts = r.attempts) store
      (ClaimPending store limit now).2 ∧
    (∀ r ∈ (ClaimPending store limit now).1,
      ∃ e0 ∈ store, e0.id = r.id ∧ r.attempts = e0.attempts) ∧
    List.Forall₂ (fun r r' => r'.attempts = r.attempts) store
      (RequeueStuckProcessing store olderThan now).1 ∧
    (∃ rest, (enqueueWithDB store e now).1 = store ++ rest) ∧
    processEvent cfg ev none now = Outcome.processed ∧
    (∃ m, processEvent cfg ev (some err) now =
        Outcome.failed (ev.attempts + 1) m ∨
      ∃ ra, processEvent cfg ev (some err) now =
        Outcome.retried (ev.attempts + 1) m ra) := by
  refine ⟨?_, ?_, ?_, ?_, ?_, rfl, ?_⟩
  · unfold MarkProcessed
    apply forall₂_map_self
    intro r _
    dsimp only
    split <;> rfl
  · rw [ClaimPending_snd]
    apply forall₂_map_self
    intro r _
    dsimp only
    split <;> split <;> rfl
  · rw [ClaimPending_fst]
    intro r hr
    obtain ⟨s, hs, rfl⟩ := List.mem_map.mp hr
    exact ⟨s, (List.mem_filter.mp (mem_claimSelect_filter hs)).1, rfl, rfl⟩
  · rw [RequeueStuckProcessing_fst]
    apply forall₂_map_self
    intro r _
    dsimp only
    split <;> split <;> rfl
  · by_cases hdup : (store.any fun r =>
        r.idempotencyKey == (enqueueNormalize e now).idempotencyKey) = true
    · refine ⟨[], ?_⟩
      simp [enqueueWithDB, dbCreate, hdup, isUniqueViolation]
    · have hf : (store.any fun r =>
          r.idempotencyKey == (enqueueNormalize e now).idempotencyKey)
          = false := Bool.eq_false_iff.mpr hdup
      refine ⟨[{ enqueueNormalize e now with id := nextId store }], ?_⟩
      simp [enqueueWithDB, dbCreate, hf]
  · refine ⟨truncateError err.message 2000, ?_⟩
    by_cases hc : (IsPermanent err ||
        decide (cfg.maxAttempts ≤ ((ev.attempts : Int) + 1))) = true
    · exact Or.inl (by rw [processEvent_some_eq, if_pos hc])
    · exact Or.inr ⟨_, by rw [processEvent_some_eq, if_neg hc]⟩

theorem attempts_change_only_on_failed_dispatch_witness :
    List.Forall₂ (fun r r' => r'.attempts = r.attempts) [sampleEvent]
      (MarkProcessed [sampleEvent] 1 0) ∧
    List.Forall₂ (fun r r' => r'.attempts = r.attempts) [sampleEvent]
      (ClaimPending [sampleEvent] 5 0).2 ∧
    (∀ r ∈ (ClaimPending [sampleEvent] 5 0).1,
      ∃ e0 ∈ [sampleEvent], e0.id = r.id ∧ r.attempts = e0.attempts) ∧
    List.Forall₂ (fun r r' => r'.attempts = r.attempts) [sampleEvent]
      (RequeueStuckProcessing [sampleEvent] minute 0).1 ∧
    (∃ rest, (enqueueWithDB [sampleEvent] sampleEvent 0).1 =
      [sampleEvent] ++ rest) ∧
    processEvent defaultConfig sampleEvent none 0 = Outcome.processed ∧
    (∃ m, processEvent defaultConfig sampleEvent (some ⟨false, [1]⟩) 0 =
        Outcome.failed (sampleEvent.attempts + 1) m ∨
      ∃ ra, processEvent defaultConfig sampleEvent (some ⟨false, [1]⟩) 0 =
        Outcome.retried (sampleEvent.attempts + 1) m ra) :=
  attempts_change_only_on_failed_dispatch [sampleEvent] 1 5 0 minute
    defaultConfig sampleEvent sampleEvent ⟨false, [1]⟩

theorem claimLE_trans (a b c : OutboxEvent) (hab : claimLE a b = true)
    (hbc : claimLE b c = true) : claimLE a c = true := by
  unfold claimLE at *
  simp only [Bool.or_eq_true, Bool.and_eq_true, decide_eq_true_eq] at *
  omega

theorem claimLE_total (a b : OutboxEvent) :
    (claimLE a b || claimLE b a) = true := by
  unfold claimLE
  simp only [Bool.or_eq_true, Bool.and_eq_true, decide_eq_true_eq]
  omega

theorem contains_id_iff (ids : List Nat) (x : Nat) :
    ids.contains x = true ↔ x ∈ ids := by
  simp

/-- C1: with a positive limit, ClaimPending returns exactly the pending
rows whose `available_at` has passed, in ascending `(available_at, id)`
order, at most `limit` of them (all of them when they fit), each returned
row is its stored original transitioned to processing with
`processing_started = now` in the table, and rows failing the predicate
are neither returned nor modified. -/
theorem claimPending_spec (store : List OutboxEvent) (limit now : Int)
    (hl : 0 < limit) (hnd : (store.map OutboxEvent.id).Nodup) :
    (ClaimPending store limit now).1.length =
      min limit.toNat (store.filter (claimEligible now)).length ∧
    (∀ r ∈ (ClaimPending store limit now).1,
      r.status = OutboxStatusProcessing ∧ r.processingStarted = some now ∧
      ∃ e ∈ store, claimEligible now e = true ∧ e.id = r.id ∧
        r = claimReturnRow now e) ∧
    List.Pairwise (fun a b => claimLE a b = true)
      (ClaimPending store limit now).1 ∧
    ((store.filter (claimEligible now)).length ≤ limit.toNat →
      ∀ e ∈ store, claimEligible now e = true →
        claimReturnRow now e ∈ (ClaimPending store limit now).1) ∧
    (∀ e ∈ store, claimEligible now e = false →
      e ∈ (ClaimPending store limit now).2) ∧
    (∀ e ∈ store, claimReturnRow now e ∈ (ClaimPending store limit now).1 →
      markClaimedRow now e ∈ (ClaimPending store limit now).2) := by
  have hlim : (if limit ≤ 0 then 25 else limit.toNat) = limit.toNat :=
    if_neg (not_le.mpr hl)
  have hfst : (ClaimPending store limit now).1 =
      (claimSelect store now limit.toNat).map (claimReturnRow now) := by
    rw [ClaimPending_fst, hlim]
  have hsnd : (ClaimPending store limit now).2 = store.map fun r =>
      if ((claimSelect store now limit.toNat).map (·.id)).contains r.id
      then markClaimedRow now r else r := by
    rw [ClaimPending_snd, hlim]
  have hsel_mem : ∀ s ∈ claimSelect store now limit.toNat,
      s ∈ store ∧ claimEligible now s = true := by
    intro s hs
    exact List.mem_filter.mp (mem_claimSelect_filter hs)
  have hid_sel : ∀ x, x ∈ (claimSelect store now limit.toNat).map (·.id) →
      ∃ s ∈ store, claimEligible now s = true ∧ s.id = x := by
    intro x hx
    obtain ⟨s, hs, rfl⟩ := List.mem_map.mp hx
    obtain ⟨h1, h2⟩ := hsel_mem s hs
    exact ⟨s, h1, h2, rfl⟩
  refine ⟨?_, ?_, ?_, ?_, ?_, ?_⟩
  · rw [hfst]
    simp [claimSelect, List.length_take]
  · rw [hfst]
    intro r hr
    obtain ⟨s, hs, rfl⟩ := List.mem_map.mp hr
    obtain ⟨h1, h2⟩ := hsel_mem s hs
    exact ⟨rfl, rfl, s, h1, h2, rfl, rfl⟩
  · rw [hfst]
    have hsorted : List.Pairwise (fun a b => claimLE a b = true)
        ((store.filter (claimEligible now)).mergeSort claimLE) :=
      List.sorted_mergeSort claimLE_trans claimLE_total _
    have htake : List.Pairwise (fun a b => claimLE a b = true)
        (claimSelect store now limit.toNat) :=
      List.Pairwise.sublist (List.take_sublist _ _) hsorted
    exact List.pairwise_map.mpr (htake.imp fun h => h)
  · intro hle e he helig
    rw [hfst]
    refine List.mem_map_of_mem _ ?_
    unfold claimSelect
    rw [List.take_of_length_le (by simpa using hle)]
    rw [List.mem_mergeSort]
    exact List.mem_filter.mpr ⟨he, helig⟩
  · intro e he hne
    rw [hsnd]
    have hcont : (((claimSelect store now limit.toNat).map (·.id)).contains
        e.id) = false := by
      by_contra hcb
      have hmem : e.id ∈ (claimSelect store now limit.toNat).map (·.id) :=
        (contains_id_iff _ _).mp (Bool.not_eq_false _ ▸ hcb)
      obtain ⟨s, hsmem, hselig, hsid⟩ := hid_sel e.id hmem
      have : s = e := List.inj_on_of_nodup_map hnd hsmem he hsid
      rw [this] at hselig
      rw [hselig] at hne
      exact Bool.noConfusion hne
    have : (if (((claimSelect store now limit.toNat).map (·.id)).contains
        e.id) = true then markClaimedRow now e else e) = e := by
      rw [hcont]
      simp
    exact this ▸ List.mem_map_of_mem _ he
  · intro e he hmem
    rw [hsnd]
    rw [hfst] at hmem
    obtain ⟨s, hs, hseq⟩ := List.mem_map.mp hmem
    have hsid : s.id = e.id := by
      have := congrArg OutboxEvent.id hseq
      simpa [claimReturnRow] using this
    have hcont : (((claimSelect store now limit.toNat).map (·.id)).contains
        e.id) = true := by
      rw [contains_id_iff]
      exact hsid ▸ List.mem_map_of_mem _ hs
    have : (if (((claimSelect store now limit.toNat).map (·.id)).contains
        e.id) = true then markClaimedRow now e else e) = markClaimedRow now e := by
      rw [hcont]
      simp
    exact this ▸ List.mem_map_of_mem _ he

theorem claimPending_spec_witness :
    (0 : Int) < 5 ∧ ([samplePendingEvent].map OutboxEvent.id).Nodup ∧
    ((ClaimPending [samplePendingEvent] 5 0).1.length =
      min (5 : Int).toNat
        ([samplePendingEvent].filter (claimEligible 0)).length ∧
    (∀ r ∈ (ClaimPending [samplePendingEvent] 5 0).1,
      r.status = OutboxStatusProcessing ∧ r.processingStarted = some 0 ∧
      ∃ e ∈ [samplePendingEvent], claimEligible 0 e = true ∧ e.id = r.id ∧
        r = claimReturnRow 0 e) ∧
    List.Pairwise (fun a b => claimLE a b = true)
      (ClaimPending [samplePendingEvent] 5 0).1 ∧
    (([samplePendingEvent].filter (claimEligible 0)).length ≤ (5 : Int).toNat →
      ∀ e ∈ [samplePendingEvent], claimEligible 0 e = true →
        claimReturnRow 0 e ∈ (ClaimPending [samplePendingEvent] 5 0).1) ∧
    (∀ e ∈ [samplePendingEvent], claimEligible 0 e = false →
      e ∈ (ClaimPending [samplePendingEvent] 5 0).2) ∧
    (∀ e ∈ [samplePendingEvent],
      claimReturnRow 0 e ∈ (ClaimPending [samplePendingEvent] 5 0).1 →
      markClaimedRow 0 e ∈ (ClaimPending [samplePendingEvent] 5 0).2)) :=
  ⟨by decide, by decide, claimPending_spec [samplePendingEvent] 5 0
    (by decide) (by decide)⟩

theorem runCycle_eq (handlers : List (String × Handler))
    (cfg : OutboxWorkerConfig) (store : List OutboxEvent) (now : Int) :
    runCycle handlers cfg store now =
      (ClaimPending (RequeueStuckProcessing store cfg.stuckAfter now).1
          cfg.batchSize now).1.foldl
        (fun st e =>
          applyOutcome st e.id (processEvent cfg e (Dispatch handlers e) now) now)
        (ClaimPending (RequeueStuckProcessing store cfg.stuckAfter now).1
          cfg.batchSize now).2 := rfl

theorem map_id_map_of_id_preserved {f : OutboxEvent → OutboxEvent}
    (h : ∀ r, (f r).id = r.id) (s : List OutboxEvent) :
    (s.map f).map OutboxEvent.id = s.map OutboxEvent.id := by
  rw [List.map_map]
  exact List.map_congr_left fun r _ => h r

theorem ids_MarkProcessed (s : List OutboxEvent) (rowId : Nat) (now : Int) :
    (MarkProcessed s rowId now).map OutboxEvent.id = s.map OutboxEvent.id := by
  unfold MarkProcessed
  apply map_id_map_of_id_preserved
  intro r
  dsimp only
  split <;> rfl

theorem ids_MarkRetry (s : List OutboxEvent) (rowId : Nat) (attempts : Nat)
    (lastError : List Nat) (nextAttemptAt now : Int) :
    (MarkRetry s rowId attempts lastError nextAttemptAt now).map
      OutboxEvent.id = s.map OutboxEvent.id := by
  unfold MarkRetry
  apply map_id_map_of_id_preserved
  intro r
  dsimp only
  split <;> rfl

theorem ids_MarkFailed (s : List OutboxEvent) (rowId : Nat) (attempts : Nat)
    (lastError : List Nat) (now : Int) :
    (MarkFailed s rowId attempts lastError now).map OutboxEvent.id =
      s.map OutboxEvent.id := by
  unfold MarkFailed
  apply map_id_map_of_id_preserved
  intro r
  dsimp only
  split <;> rfl

theorem ids_RequeueStuckProcessing (s : List OutboxEvent)
    (olderThan now : Int) :
    ((RequeueStuckProcessing s olderThan now).1).map OutboxEvent.id =
      s.map OutboxEvent.id := by
  rw [RequeueStuckProcessing_fst]
  apply map_id_map_of_id_preserved
  intro r
  dsimp only
  split <;> split <;> rfl

theorem ids_ClaimPending_snd (s : List OutboxEvent) (limit now : Int) :
    ((ClaimPending s limit now).2).map OutboxEvent.id =
      s.map OutboxEvent.id := by
  rw [ClaimPending_snd]
  apply map_id_map_of_id_preserved
  intro r
  dsimp only
  split <;> split <;> rfl

theorem ids_applyOutcome (s : List OutboxEvent) (eid : Nat) (out : Outcome)
    (now : Int) :
    (applyOutcome s eid out now).map OutboxEvent.id =
      s.map OutboxEvent.id := by
  cases out with
  | processed => exact ids_MarkProcessed s eid now
  | retried a m t => exact ids_MarkRetry s eid a m t now
  | failed a m => exact ids_MarkFailed s eid a m now

theorem ids_markFold (handlers : List (String × Handler))
    (cfg : OutboxWorkerConfig) (now : Int) (claimed : List OutboxEvent) :
    ∀ st : List OutboxEvent,
      (claimed.foldl
        (fun st e =>
          applyOutcome st e.id (processEvent cfg e (Dispatch handlers e) now) now)
        st).map OutboxEvent.id = st.map OutboxEvent.id := by
  induction claimed with
  | nil => intro st; rfl
  | cons e es ih =>
      intro st
      rw [List.foldl_cons, ih, ids_applyOutcome]

theorem ids_runCycle (handlers : List (String × Handler))
    (cfg : OutboxWorkerConfig) (s : List OutboxEvent) (now : Int) :
    (runCycle handlers cfg s now).map OutboxEvent.id =
      s.map OutboxEvent.id := by
  rw [runCycle_eq, ids_markFold, ids_ClaimPending_snd,
    ids_RequeueStuckProcessing]

theorem enqueue_fst_cases (s : List OutboxEvent) (e : OutboxEvent)
    (now : Int) :
    (enqueueWithDB s e now).1 = s ∨
    (enqueueWithDB s e now).1 =
      s ++ [{ enqueueNormalize e now with id := nextId s }] := by
  by_cases hdup : (s.any fun r =>
      r.idempotencyKey == (enqueueNormalize e now).idempotencyKey) = true
  · left
    simp [enqueueWithDB, dbCreate, hdup, isUniqueViolation]
  · right
    have hf : (s.any fun r =>
        r.idempotencyKey == (enqueueNormalize e now).idempotencyKey) = false :=
      Bool.eq_false_iff.mpr hdup
    simp [enqueueWithDB, dbCreate, hf]

theorem le_foldr_max : ∀ (l : List Nat), ∀ a ∈ l, a ≤ l.foldr max 0
  | [] => by
    intro a ha
    cases ha
  | b :: l => by
    intro a ha
    rcases List.mem_cons.mp ha with rfl | h
    · exact le_max_left _ _
    · exact le_trans (le_foldr_max l a h) (le_max_right _ _)

theorem nextId_not_mem (s : List OutboxEvent) :
    nextId s ∉ s.map OutboxEvent.id := by
  intro hmem
  have := le_foldr_max (s.map OutboxEvent.id) _ hmem
  unfold nextId at this
  omega

theorem requeue_keeps_row {s : List OutboxEvent} {r : OutboxEvent}
    {olderThan now : Int} (hr : r ∈ s)
    (hstatus : r.status ≠ OutboxStatusProcessing) :
    r ∈ (RequeueStuckProcessing s olderThan now).1 := by
  rw [RequeueStuckProcessing_fst]
  have hst : stuckRow
      (now - if olderThan ≤ 0 then 10 * minute else olderThan) r = false := by
    unfold stuckRow
    rw [beq_eq_false_iff_ne.mpr hstatus, Bool.false_and]
  have heq : (if stuckRow
      (now - if olderThan ≤ 0 then 10 * minute else olderThan) r = true
      then requeueRow now r else r) = r := by
    rw [hst]
    simp
  exact heq ▸ List.mem_map_of_mem _ hr

theorem claim_keeps_row {s : List OutboxEvent} {r : OutboxEvent}
    (limit : Int) {now : Int} (hr : r ∈ s)
    (hnd : (s.map OutboxEvent.id).Nodup)
    (hne : claimEligible now r = false) :
    r ∈ (ClaimPending s limit now).2 ∧
    ∀ e ∈ (ClaimPending s limit now).1, e.id ≠ r.id := by
  have hcont : (((claimSelect s now
      (if limit ≤ 0 then 25 else limit.toNat)).map (·.id)).contains r.id)
      = false := by
    by_contra hcb
    have hmem : r.id ∈ (claimSelect s now
        (if limit ≤ 0 then 25 else limit.toNat)).map (·.id) :=
      (contains_id_iff _ _).mp (Bool.not_eq_false _ ▸ hcb)
    obtain ⟨t, ht, htid⟩ := List.mem_map.mp hmem
    obtain ⟨ht1, ht2⟩ := List.mem_filter.mp (mem_claimSelect_filter ht)
    have hteq : t = r := List.inj_on_of_nodup_map hnd ht1 hr htid
    rw [hteq, hne] at ht2
    exact Bool.noConfusion ht2
  constructor
  · rw [ClaimPending_snd]
    have heq : (if (((claimSelect s now
        (if limit ≤ 0 then 25 else limit.toNat)).map (·.id)).contains r.id)
        = true then markClaimedRow now r else r) = r := by
      rw [hcont]
      simp
    exact heq ▸ List.mem_map_of_mem _ hr
  · intro e he hid
    rw [ClaimPending_fst] at he
    obtain ⟨t, ht, hteq⟩ := List.mem_map.mp he
    obtain ⟨ht1, ht2⟩ := List.mem_filter.mp (mem_claimSelect_filter ht)
    have htid : t.id = r.id := by
      have : (claimReturnRow now t).id = e.id := by rw [hteq]
      rw [← hid]
      exact this
    have hteqr : t = r := List.inj_on_of_nodup_map hnd ht1 hr htid
    rw [hteqr, hne] at ht2
    exact Bool.noConfusion ht2

theorem applyOutcome_keeps_row {st : List OutboxEvent} {r : OutboxEvent}
    {eid : Nat} {out : Outcome} {now : Int} (hr : r ∈ st)
    (hne : eid ≠ r.id) :
    r ∈ applyOutcome st eid out now := by
  have hif : r.id = eid → False := fun h => hne h.symm
  cases out with
  | processed =>
      unfold applyOutcome MarkProcessed
      have heq : (if r.id = eid then markProcessedRow now r else r) = r :=
        if_neg hif
      exact heq ▸ List.mem_map_of_mem _ hr
  | retried a m t =>
      unfold applyOutcome MarkRetry
      have heq : (if r.id = eid then markRetryRow a m t now r else r) = r :=
        if_neg hif
      exact heq ▸ List.mem_map_of_mem _ hr
  | failed a m =>
      unfold applyOutcome MarkFailed
      have heq : (if r.id = eid then markFailedRow a m now r else r) = r :=
        if_neg hif
      exact heq ▸ List.mem_map_of_mem _ hr

theorem markFold_keeps_row (handlers : List (String × Handler))
    (cfg : OutboxWorkerConfig) (now : Int) (claimed : List OutboxEvent) :
    ∀ (st : List OutboxEvent) (r : OutboxEvent), r ∈ st →
      (∀ e ∈ claimed, e.id ≠ r.id) →
      r ∈ claimed.foldl
        (fun st e =>
          applyOutcome st e.id (processEvent cfg e (Dispatch handlers e) now) now)
        st := by
  induction claimed with
  | nil =>
      intro st r hr _
      exact hr
  | cons e es ih =>
      intro st r hr hne
      rw [List.foldl_cons]
      apply ih
      · exact applyOutcome_keeps_row hr (hne e (List.mem_cons_self e es))
      · intro x hx
        exact hne x (List.mem_cons_of_mem e hx)

theorem step_preserves_nodup (handlers : List (String × Handler))
    (cfg : OutboxWorkerConfig) {s s' : List OutboxEvent}
    (hstep : OutboxStep handlers cfg s s')
    (hnd : (s.map OutboxEvent.id).Nodup) :
    (s'.map OutboxEvent.id).Nodup := by
  cases hstep with
  | enqueue e now =>
      rcases enqueue_fst_cases s e now with h | h
      · rw [h]
        exact hnd
      · rw [h, List.map_append]
        refine List.Nodup.append hnd (List.nodup_singleton _) ?_
        intro a ha hb
        rcases List.mem_singleton.mp hb with rfl
        exact nextId_not_mem s ha
  | requeue olderThan now =>
      rw [ids_RequeueStuckProcessing]
      exact hnd
  | cycle now =>
      rw [ids_runCycle]
      exact hnd

theorem step_preserves_terminal (handlers : List (String × Handler))
    (cfg : OutboxWorkerConfig) {s s' : List OutboxEvent}
    (hstep : OutboxStep handlers cfg s s')
    (hnd : (s.map OutboxEvent.id).Nodup) (r : OutboxEvent) (hr : r ∈ s)
    (hterm : r.status = OutboxStatusProcessed ∨
      r.status = OutboxStatusFailed) :
    r ∈ s' := by
  have hnp : r.status ≠ OutboxStatusProcessing := by
    rcases hterm with h | h <;> rw [h] <;> decide
  cases hstep with
  | enqueue e now =>
      rcases enqueue_fst_cases s e now with h | h
      · rw [h]
        exact hr
      · rw [h]
        exact List.mem_append_left _ hr
  | requeue olderThan now =>
      exact requeue_keeps_row hr hnp
  | cycle now =>
      rw [runCycle_eq]
      have hr1 : r ∈ (RequeueStuckProcessing s cfg.stuckAfter now).1 :=
        requeue_keeps_row hr hnp
      have hnd1 : (((RequeueStuckProcessing s cfg.stuckAfter now).1).map
          OutboxEvent.id).Nodup := by
        rw [ids_RequeueStuckProcessing]
        exact hnd
      have helig : claimEligible now r = false := by
        unfold claimEligible
        have : r.status ≠ OutboxStatusPending := by
          rcases hterm with h | h <;> rw [h] <;> decide
        rw [beq_eq_false_iff_ne.mpr this, Bool.false_and]
      obtain ⟨hin2, hids⟩ := claim_keeps_row cfg.batchSize hr1 hnd1 helig
      exact markFold_keeps_row handlers cfg now _ _ r hin2 hids

/-- C5: along any sequence of subsystem steps — publishes, stuck-row
requeues, and full worker cycles (requeue, claim, dispatch, mark, as the
worker sequences them) — a row that is processed or failed is never
touched again: it survives unchanged and stays the unique row with its id,
so no operation of the worker flow returns it to pending or processing. -/
theorem terminal_rows_never_transition (handlers : List (String × Handler))
    (cfg : OutboxWorkerConfig) (s s' : List OutboxEvent)
    (hreach : Relation.ReflTransGen (OutboxStep handlers cfg) s s')
    (hnd : (s.map OutboxEvent.id).Nodup) (r : OutboxEvent) (hr : r ∈ s)
    (hterm : r.status = OutboxStatusProcessed ∨
      r.status = OutboxStatusFailed) :
    r ∈ s' ∧ ∀ r' ∈ s', r'.id = r.id → r' = r := by
  have key : r ∈ s' ∧ (s'.map OutboxEvent.id).Nodup := by
    induction hreach with
    | refl => exact ⟨hr, hnd⟩
    | tail hab hstep ih =>
        obtain ⟨hmem, hnd'⟩ := ih
        exact ⟨step_preserves_terminal handlers cfg hstep hnd' r hmem hterm,
               step_preserves_nodup handlers cfg hstep hnd'⟩
  obtain ⟨hmem, hnd'⟩ := key
  refine ⟨hmem, ?_⟩
  intro r' hr' hid
  exact List.inj_on_of_nodup_map hnd' hr' hmem hid

theorem terminal_rows_never_transition_witness :
    ([sampleFailedEvent].map OutboxEvent.id).Nodup ∧
    sampleFailedEvent ∈ [sampleFailedEvent] ∧
    (sampleFailedEvent.status = OutboxStatusProcessed ∨
     sampleFailedEvent.status = OutboxStatusFailed) ∧
    (sampleFailedEvent ∈ runCycle [] defaultConfig [sampleFailedEvent] 0 ∧
     ∀ r' ∈ runCycle [] defaultConfig [sampleFailedEvent] 0,
       r'.id = sampleFailedEvent.id → r' = sampleFailedEvent) :=
  ⟨by decide, by decide, Or.inr rfl,
   terminal_rows_never_transition [] defaultConfig [sampleFailedEvent]
     (runCycle [] defaultConfig [sampleFailedEvent] 0)
     (Relation.ReflTransGen.single (OutboxStep.cycle [sampleFailedEvent] 0))
     (by decide) sampleFailedEvent (by decide) (Or.inr rfl)⟩
